import Mathlib

/-!
Shallow embedding of the AutoFill form-matching and fill-resolution core of
`chrome/browser/autofill/autofill_manager.cc`, together with theorems checking
the specification's claims about it.

Conventions of the embedding:
* `string16` values are embedded as `List Char` (or `String` for map keys),
  `std::vector` as `List`, `std::map` / `std::set` as association lists with
  lookup / membership.
* The packed identifier of `PackGUIDs` is a C++ `int` used as a container of
  two 16-bit halves; it is embedded as the `Nat` holding the same bit
  pattern, with the same shift/or/and operations.
* Functions defined in other translation units of the repository
  (`AutoFillType::GetEquivalentFieldType`, `AutoFillType::group`,
  `guid::IsValidGUID`, `operator==` between cached and live fields,
  `FillSelectControl`, `l10n_util::GetStringUTF16`) are abstracted as
  explicit function parameters: every theorem below holds for an arbitrary
  choice of them, which is exactly how `autofill_manager.cc` consumes them.
* Loops are embedded as structurally recursive functions whose arguments are
  the loop's mutable state.
-/

/-! ## Identifier codec (`PackGUIDs` / `UnpackGUIDs` / `GUIDToID` / `IDToGUID`)

The process-wide state of the codec: `guid_id_map_`, `id_guid_map_` and the
function-static counter `last_id` (which starts at 1).  `valid` abstracts
`guid::IsValidGUID` (defined in `chrome/common/guid.cc`, outside the sample).
-/

structure CodecState where
  guid_id_map : List (String × Nat)
  id_guid_map : List (Nat × String)
  last_id : Nat
deriving DecidableEq

def initialCodecState : CodecState := ⟨[], [], 1⟩

/-- `AutoFillManager::GUIDToID`: invalid GUIDs map to the sentinel 0; a fresh
valid GUID is assigned the counter value and memoized in both directions. -/
def GUIDToID (valid : String → Bool) (s : CodecState) (g : String) : Nat × CodecState :=
  if valid g = false then (0, s)
  else
    match s.guid_id_map.lookup g with
    | some i => (i, s)
    | none =>
      (s.last_id,
       ⟨(g, s.last_id) :: s.guid_id_map, (s.last_id, g) :: s.id_guid_map, s.last_id + 1⟩)

/-- `AutoFillManager::IDToGUID`: 0 maps back to the empty string; an id that
was never assigned also yields the empty string (the `NOTREACHED` branch). -/
def IDToGUID (s : CodecState) (i : Nat) : String :=
  if i = 0 then ""
  else
    match s.id_guid_map.lookup i with
    | some g => g
    | none => ""

/-- `AutoFillManager::PackGUIDs`: credit-card id in the high 16 bits, profile
id in the low 16 bits (`cc_id << 16 | profile_id`). -/
def PackGUIDs (valid : String → Bool) (s : CodecState) (ccGuid profileGuid : String) :
    Nat × CodecState :=
  let r1 := GUIDToID valid s ccGuid
  let r2 := GUIDToID valid r1.2 profileGuid
  (r1.1 <<< 16 ||| r2.1, r2.2)

/-- `AutoFillManager::UnpackGUIDs`: extract the two 16-bit halves
(`id >> 16 & 0xffff` and `id & 0xffff`) and translate them back. -/
def UnpackGUIDs (s : CodecState) (n : Nat) : String × String :=
  let ccId := (n >>> 16) &&& 65535
  let profileId := n &&& 65535
  (IDToGUID s ccId, IDToGUID s profileId)

/-- Consistency invariant of the codec maps: the two maps are inverse to each
other and every assigned id lies in `[1, last_id)`. -/
structure CodecWF (s : CodecState) : Prop where
  lookupId : ∀ g i, s.guid_id_map.lookup g = some i → s.id_guid_map.lookup i = some g
  lookupGuid : ∀ i g, s.id_guid_map.lookup i = some g → s.guid_id_map.lookup g = some i
  idRange : ∀ g i, s.guid_id_map.lookup g = some i → 1 ≤ i ∧ i < s.last_id
  onePos : 1 ≤ s.last_id

/-- States reachable from `s` by performing further `GUIDToID` calls (as
`PackGUIDs` calls for other identifiers would between a pack and the matching
unpack). -/
inductive CodecReach (valid : String → Bool) : CodecState → CodecState → Prop
  | refl (s : CodecState) : CodecReach valid s s
  | step (s t : CodecState) (g : String) (h : CodecReach valid s t) :
      CodecReach valid s (GUIDToID valid t g).2

/-! ## Field-type vocabulary

The semantic field-type enum and its group partition live in
`chrome/browser/autofill/autofill_type.{h,cc}`, outside the sample; the
manager only distinguishes `UNKNOWN_TYPE`, the two expiration-date constants
it mentions by name, and the groups `NO_GROUP`, `PHONE_HOME`, `PHONE_FAX` and
`CREDIT_CARD`.  The group assignment `grp` and the equivalence-class map
`equiv` (`AutoFillType::GetEquivalentFieldType`) are abstracted as parameters
of every function that uses them. -/

inductive AutofillFieldType where
  | UNKNOWN_TYPE
  | CREDIT_CARD_EXP_MONTH
  | CREDIT_CARD_EXP_4_DIGIT_YEAR
  | other (code : Nat)
deriving DecidableEq

inductive FieldTypeGroup where
  | NO_GROUP
  | CONTACT_INFO
  | ADDRESS_HOME
  | PHONE_HOME
  | PHONE_FAX
  | CREDIT_CARD
deriving DecidableEq

/-- The slice of an `AutoFillField` that `FindSectionBounds` reads: its
(classified) semantic type. -/
structure AutoFillField where
  fieldType : AutofillFieldType
deriving DecidableEq

/-! ## Section resolver (`FindSectionBounds`)

The loop of `FindSectionBounds`, with its mutable state (`i`,
`*section_start`, `seen_types`, `initiating_field_is_in_current_section`) as
arguments; the list argument is the suffix of the form's fields from index
`i` on.  The `break` that sets `*section_end = i` is the `(sectionStart, i)`
return; falling off the loop returns the default end `form.field_count()`,
which equals the final `i`.  The pointer comparison `current_field == &field`
is index equality with the initiating field's index `fieldIdx`. -/

/-- The local `already_saw_current_type` of the loop body, after the
phone/fax exemption has been applied: forms often ask for several phone or
fax numbers, so repeats of those groups are not treated as section breaks. -/
def alreadySawCurrentType (grp : AutofillFieldType → FieldTypeGroup)
    (currentType : AutofillFieldType) (seenTypes : List AutofillFieldType) : Bool :=
  if grp currentType = FieldTypeGroup.PHONE_HOME ∨
      grp currentType = FieldTypeGroup.PHONE_FAX then false
  else decide (currentType ∈ seenTypes)

/-- The local `is_appropriate_type` of the loop body: the field is a
credit-card-group field exactly when credit-card data is being filled. -/
def isAppropriateType (grp : AutofillFieldType → FieldTypeGroup)
    (currentType : AutofillFieldType) (isFillingCreditCard : Bool) : Bool :=
  decide (grp currentType = FieldTypeGroup.CREDIT_CARD) == isFillingCreditCard

def findSectionLoop (equiv : AutofillFieldType → AutofillFieldType)
    (grp : AutofillFieldType → FieldTypeGroup) (fieldIdx : Nat)
    (isFillingCreditCard : Bool) :
    List AutoFillField → Nat → Nat → List AutofillFieldType → Bool → Nat × Nat
  | [], i, sectionStart, _, _ => (sectionStart, i)
  | f :: rest, i, sectionStart, seenTypes, initiatingInSection =>
    let currentType := equiv f.fieldType
    if currentType = AutofillFieldType.UNKNOWN_TYPE then
      findSectionLoop equiv grp fieldIdx isFillingCreditCard rest (i + 1) sectionStart
        seenTypes initiatingInSection
    else
      if alreadySawCurrentType grp currentType seenTypes ||
          !(isAppropriateType grp currentType isFillingCreditCard) then
        if initiatingInSection then (sectionStart, i)
        else if isAppropriateType grp currentType isFillingCreditCard then
          findSectionLoop equiv grp fieldIdx isFillingCreditCard rest (i + 1) i
            [currentType] (initiatingInSection || i == fieldIdx)
        else
          findSectionLoop equiv grp fieldIdx isFillingCreditCard rest (i + 1) (i + 1)
            [] initiatingInSection
      else
        findSectionLoop equiv grp fieldIdx isFillingCreditCard rest (i + 1) sectionStart
          (currentType :: seenTypes) (initiatingInSection || i == fieldIdx)

/-- `FindSectionBounds`: returns the pair `(*section_start, *section_end)`. -/
def FindSectionBounds (equiv : AutofillFieldType → AutofillFieldType)
    (grp : AutofillFieldType → FieldTypeGroup) (fields : List AutoFillField)
    (fieldIdx : Nat) (isFillingCreditCard : Bool) : Nat × Nat :=
  findSectionLoop equiv grp fieldIdx isFillingCreditCard fields 0 0 [] false

/-! ## Structural matcher

`feq` abstracts the structural equality `*form_structure->field(k) ==
live_field` between a cached `AutoFillField` and a live `FormField`
(`operator==` is defined outside the sample); `α` is the cached field type
and `φ` the live field type. -/

/-- The inner `while (k < bound && field(k) != live_field) k++;` search.  The
list argument is the suffix of the cached fields from index `k` on. -/
def searchFrom {α φ : Type} (feq : α → φ → Bool) :
    List α → Nat → Nat → φ → Nat
  | [], _, k, _ => k
  | c :: rest, bound, k, lf =>
    if k < bound then
      if feq c lf then k else searchFrom feq rest bound (k + 1) lf
    else k

/-- The correspondences (cached index, live index) produced by the
fill-targeting loop of `OnFillAutoFillFormData`: for each live field `j` a
forward search from the cursor `i`, bounded by `section_end`; on a match at
`k` the pair `(k, j)` is recorded and the cursor advances by one (`++i`). -/
def fillLoopCorrs {α φ : Type} (feq : α → φ → Bool) (cached : List α)
    (sectionEnd : Nat) : Nat → Nat → List φ → List (Nat × Nat)
  | _, _, [] => []
  | i, j, lf :: rest =>
    if i < sectionEnd then
      let k := searchFrom feq (cached.drop i) sectionEnd i lf
      if sectionEnd ≤ k then fillLoopCorrs feq cached sectionEnd i (j + 1) rest
      else (k, j) :: fillLoopCorrs feq cached sectionEnd (i + 1) (j + 1) rest
    else []

/-- The correspondence trace of the fill-targeting loop over a section
`[sectionStart, sectionEnd)`. -/
def fillTargetCorrespondences {α φ : Type} (feq : α → φ → Bool) (cached : List α)
    (sectionStart sectionEnd : Nat) (live : List φ) : List (Nat × Nat) :=
  fillLoopCorrs feq cached sectionEnd sectionStart 0 live

/-- The loop of `SectionIsAutoFilled`: same two-cursor scheme, but the inner
search is bounded by `form_structure->field_count()` (the whole cached form),
not by `section_end`; a matched live field that reports itself auto-filled
makes the whole section count as auto-filled.  `isAuto` abstracts
`form.fields[j].is_autofilled()`. -/
def sectionIsAutoFilledLoop {α φ : Type} (feq : α → φ → Bool) (isAuto : φ → Bool)
    (cached : List α) (sectionEnd : Nat) : List φ → Nat → Bool
  | [], _ => false
  | lf :: rest, i =>
    if i < sectionEnd then
      let k := searchFrom feq (cached.drop i) cached.length i lf
      if cached.length ≤ k then sectionIsAutoFilledLoop feq isAuto cached sectionEnd rest i
      else if isAuto lf then true
      else sectionIsAutoFilledLoop feq isAuto cached sectionEnd rest (i + 1)
    else false

/-- `SectionIsAutoFilled`. -/
def SectionIsAutoFilled {α φ : Type} (feq : α → φ → Bool) (isAuto : φ → Bool)
    (cached : List α) (sectionStart sectionEnd : Nat) (live : List φ) : Bool :=
  sectionIsAutoFilledLoop feq isAuto cached sectionEnd live sectionStart

/-- The already-auto-filled branch of `OnFillAutoFillFormData`: walk the live
fields, fill the first one equal (`operator==`, abstracted as `beqLive`) to
the initiating field and `break`.  `fillInit` abstracts the
`FillFormField` / `FillCreditCardFormField` call applied to that field. -/
def fillAlreadyFilledSection {φ : Type} (beqLive : φ → φ → Bool) (fillInit : φ → φ)
    (initiating : φ) : List φ → List φ
  | [] => []
  | f :: rest =>
    if beqLive f initiating then fillInit f :: rest
    else f :: fillAlreadyFilledSection beqLive fillInit initiating rest

/-- The fill-targeting loop of `OnFillAutoFillFormData` acting on the live
fields: a matched live field is filled from the matched cached field when the
cached type's group is not `NO_GROUP` (`actionable`), via `fillWith`
(abstracting the `FillFormField` / `FillCreditCardFormField` dispatch). -/
def fillLoopFields {α φ : Type} (feq : α → φ → Bool) (actionable : α → Bool)
    (fillWith : α → φ → φ) (cached : List α) (sectionEnd : Nat) :
    Nat → List φ → List φ
  | _, [] => []
  | i, lf :: rest =>
    if i < sectionEnd then
      let k := searchFrom feq (cached.drop i) sectionEnd i lf
      if sectionEnd ≤ k then
        lf :: fillLoopFields feq actionable fillWith cached sectionEnd i rest
      else
        (match cached.get? k with
         | some cf => if actionable cf then fillWith cf lf else lf
         | none => lf) :: fillLoopFields feq actionable fillWith cached sectionEnd (i + 1) rest
    else lf :: rest

/-- The part of `OnFillAutoFillFormData` that computes the returned form's
field list, after the section bounds have been computed: if
`SectionIsAutoFilled` reports the section filled, only the initiating field
is (re)filled; otherwise the fill-targeting loop runs over the section. -/
def OnFillAutoFillFormDataFields {α φ : Type} (feq : α → φ → Bool) (isAuto : φ → Bool)
    (beqLive : φ → φ → Bool) (actionable : α → Bool) (fillWith : α → φ → φ)
    (fillInit : φ → φ) (cached : List α) (sectionStart sectionEnd : Nat)
    (initiating : φ) (fields : List φ) : List φ :=
  if SectionIsAutoFilled feq isAuto cached sectionStart sectionEnd fields then
    fillAlreadyFilledSection beqLive fillInit initiating fields
  else
    fillLoopFields feq actionable fillWith cached sectionEnd sectionStart fields

/-! ## Suggestion deduplication (`RemoveDuplicateSuggestions`) -/

/-- The loop of `RemoveDuplicateSuggestions`: `seenSuggestions` is the
`std::set` of (value, label) pairs already seen; an entry is kept (in order)
exactly when its pair is fresh, and then all four sequences keep the entry. -/
def rdsLoop {V L I U : Type} [DecidableEq V] [DecidableEq L]
    (seenSuggestions : List (V × L)) :
    List V → List L → List I → List U → List V × List L × List I × List U
  | v :: vs, l :: ls, ic :: ics, u :: us =>
    if (v, l) ∈ seenSuggestions then rdsLoop seenSuggestions vs ls ics us
    else
      let r := rdsLoop ((v, l) :: seenSuggestions) vs ls ics us
      (v :: r.1, l :: r.2.1, ic :: r.2.2.1, u :: r.2.2.2)
  | _, _, _, _ => ([], [], [], [])

/-- `RemoveDuplicateSuggestions` on the four parallel sequences. -/
def RemoveDuplicateSuggestions {V L I U : Type} [DecidableEq V] [DecidableEq L]
    (values : List V) (labels : List L) (icons : List I) (uniqueIds : List U) :
    List V × List L × List I × List U :=
  rdsLoop [] values labels icons uniqueIds

/-! ## Value resolver -/

namespace PhoneNumber

/-- Modelled from the spec: the fixed-width national phone format of
`PhoneNumber` (`chrome/browser/autofill/phone_number.h`, outside the sample):
a 3-digit prefix at offset 0 and a 7-digit suffix at offset 3, total 10
digits (spec §4.4 and Scenario C). -/
def kPrefixLength : Nat := 3

/-- Modelled from the spec: suffix length of the fixed-width format. -/
def kSuffixLength : Nat := 7

/-- Modelled from the spec: offset of the prefix substring. -/
def kPrefixOffset : Nat := 0

/-- Modelled from the spec: offset of the suffix substring. -/
def kSuffixOffset : Nat := 3

end PhoneNumber

/-- The slice of a live `webkit_glue::FormField` that the value-resolver
functions read and write: its control kind, maximum length and value. -/
structure FormFieldState where
  form_control_type : String
  max_length : Nat
  value : List Char
deriving DecidableEq

/-- `AutoFillManager::FillPhoneNumberField`: `number` is
`profile->GetFieldText(type)`.  If the stored number has exactly
prefix+suffix length and the field's `max_length` equals the prefix
(resp. suffix) length, the prefix (resp. suffix) substring is written;
otherwise the whole number is written. -/
def FillPhoneNumberField (number : List Char) (field : FormFieldState) : FormFieldState :=
  let hasValidSuffixAndPrefix :=
    number.length = PhoneNumber.kPrefixLength + PhoneNumber.kSuffixLength
  if hasValidSuffixAndPrefix ∧ field.max_length = PhoneNumber.kPrefixLength then
    { field with
      value := (number.drop PhoneNumber.kPrefixOffset).take PhoneNumber.kPrefixLength }
  else if hasValidSuffixAndPrefix ∧ field.max_length = PhoneNumber.kSuffixLength then
    { field with
      value := (number.drop PhoneNumber.kSuffixOffset).take PhoneNumber.kSuffixLength }
  else
    { field with value := number }

/-- `AutoFillManager::FillCreditCardFormField`: `getFieldText` abstracts
`credit_card->GetFieldText` and `fillSelectControl` the external
`autofill::FillSelectControl` handler.  For the HTML5 combined year-month
control the value `year + "-" + month` is written only when both stored
sub-values are non-empty. -/
def FillCreditCardFormField (getFieldText : AutofillFieldType → List Char)
    (fillSelectControl : FormFieldState → FormFieldState)
    (fieldType : AutofillFieldType) (field : FormFieldState) : FormFieldState :=
  if field.form_control_type = "select-one" then fillSelectControl field
  else if field.form_control_type = "month" then
    let year := getFieldText AutofillFieldType.CREDIT_CARD_EXP_4_DIGIT_YEAR
    let month := getFieldText AutofillFieldType.CREDIT_CARD_EXP_MONTH
    if year ≠ [] ∧ month ≠ [] then
      { field with value := year ++ ['-'] ++ month }
    else field
  else { field with value := getFieldText fieldType }

/-! ## Suggestion post-processing of `OnQueryFormFieldAutoFill`

The block guarded by `if (!values.empty())`: choose a warning
(`IDS_AUTOFILL_WARNING_FORM_DISABLED` when the form is not auto-fillable with
the enabled-check, else `IDS_AUTOFILL_WARNING_INSECURE_CONNECTION` for a
credit-card query on a non-HTTPS form); a non-zero warning replaces all four
sequences by one synthetic entry; otherwise labels/icons are blanked for an
already-filled section and duplicates are removed.  `isAutoFillableStrict`
abstracts `form_structure->IsAutoFillable(true)`, `isHTTPS` abstracts
`FormIsHTTPS`, `sectionFilled` the `SectionIsAutoFilled` call, and
`getWarningText` the `l10n_util::GetStringUTF16` lookup. -/
def OnQueryPostProcess (isAutoFillableStrict isFillingCreditCard isHTTPS : Bool)
    (sectionFilled : Bool) (warnFormDisabled warnInsecure : Int)
    (getWarningText : Int → List Char)
    (values labels icons : List (List Char)) (uniqueIds : List Int) :
    List (List Char) × List (List Char) × List (List Char) × List Int :=
  if values = [] then (values, labels, icons, uniqueIds)
  else
    let warning : Int :=
      if !isAutoFillableStrict then warnFormDisabled
      else if isFillingCreditCard && !isHTTPS then warnInsecure
      else 0
    if warning ≠ 0 then
      ([getWarningText warning], [[]], [[]], [-1])
    else
      let labels2 := if sectionFilled then labels.map (fun _ => ([] : List Char)) else labels
      let icons2 := if sectionFilled then icons.map (fun _ => ([] : List Char)) else icons
      RemoveDuplicateSuggestions values labels2 icons2 uniqueIds

/-! # Theorems -/

/-! ## Helper lemmas about `List.lookup` -/

theorem lookup_cons_unfold {β : Type} (a k : String) (v : β) (l : List (String × β)) :
    List.lookup a ((k, v) :: l) = if a == k then some v else List.lookup a l := by
  rw [List.lookup_cons]
  cases h : a == k <;> simp [h]

theorem lookup_cons_unfold_nat {β : Type} (a k : Nat) (v : β) (l : List (Nat × β)) :
    List.lookup a ((k, v) :: l) = if a == k then some v else List.lookup a l := by
  rw [List.lookup_cons]
  cases h : a == k <;> simp [h]

/-! ## Codec lemmas -/

theorem initialCodecState_WF : CodecWF initialCodecState := by
  constructor
  · intro g i h; simp [initialCodecState, List.lookup] at h
  · intro i g h; simp [initialCodecState, List.lookup] at h
  · intro g i h; simp [initialCodecState, List.lookup] at h
  · exact Nat.le_refl 1

theorem GUIDToID_last_id_le (valid : String → Bool) (s : CodecState) (g : String) :
    s.last_id ≤ (GUIDToID valid s g).2.last_id := by
  unfold GUIDToID
  split
  · exact Nat.le_refl _
  · split
    · exact Nat.le_refl _
    · exact Nat.le_succ _

theorem GUIDToID_guid_lookup_mono (valid : String → Bool) (s : CodecState) (g g0 : String)
    (i0 : Nat) (h : s.guid_id_map.lookup g0 = some i0) :
    (GUIDToID valid s g).2.guid_id_map.lookup g0 = some i0 := by
  unfold GUIDToID
  split
  · exact h
  · split
    · exact h
    · rename_i hnone
      have hne : (g0 == g) = false := by
        by_cases he : g0 = g
        · subst he; rw [h] at hnone; cases hnone
        · simp [he]
      simpa [lookup_cons_unfold, hne] using h

theorem GUIDToID_WF (valid : String → Bool) (s : CodecState) (hWF : CodecWF s) (g : String) :
    CodecWF (GUIDToID valid s g).2 := by
  unfold GUIDToID
  split
  · exact hWF
  split
  · exact hWF
  rename_i hnone
  constructor
  · intro g' i' h'
    rw [lookup_cons_unfold] at h'
    by_cases hg : g' = g
    · subst hg
      simp at h'
      subst h'
      simp [lookup_cons_unfold_nat]
    · rw [if_neg (by simp [hg])] at h'
      have h2 := hWF.lookupId g' i' h'
      have hlt := (hWF.idRange g' i' h').2
      rw [lookup_cons_unfold_nat, if_neg (by simp; omega)]
      exact h2
  · intro i' g' h'
    rw [lookup_cons_unfold_nat] at h'
    by_cases hi : i' = s.last_id
    · subst hi
      simp at h'
      subst h'
      simp [lookup_cons_unfold]
    · rw [if_neg (by simp [hi])] at h'
      have h2 := hWF.lookupGuid i' g' h'
      have hne : g' ≠ g := by
        intro he; subst he; rw [h2] at hnone; cases hnone
      rw [lookup_cons_unfold, if_neg (by simp [hne])]
      exact h2
  · intro g' i' h'
    rw [lookup_cons_unfold] at h'
    by_cases hg : g' = g
    · subst hg
      simp at h'
      subst h'
      exact ⟨hWF.onePos, Nat.lt_succ_self _⟩
    · rw [if_neg (by simp [hg])] at h'
      have := hWF.idRange g' i' h'
      exact ⟨this.1, Nat.lt_succ_of_lt this.2⟩
  · exact Nat.le_succ_of_le hWF.onePos

theorem CodecReach_WF (valid : String → Bool) (s t : CodecState)
    (h : CodecReach valid s t) (hWF : CodecWF s) : CodecWF t := by
  induction h with
  | refl => exact hWF
  | step t' g _ ih => exact GUIDToID_WF valid t' ih g

theorem CodecReach_guid_lookup (valid : String → Bool) (s t : CodecState)
    (h : CodecReach valid s t) (g0 : String) (i0 : Nat)
    (hl : s.guid_id_map.lookup g0 = some i0) : t.guid_id_map.lookup g0 = some i0 := by
  induction h with
  | refl => exact hl
  | step t' g _ ih => exact GUIDToID_guid_lookup_mono valid t' g g0 i0 ih

theorem CodecReach_last_id_le (valid : String → Bool) (s t : CodecState)
    (h : CodecReach valid s t) : s.last_id ≤ t.last_id := by
  induction h with
  | refl => exact Nat.le_refl _
  | step t' g _ ih => exact Nat.le_trans ih (GUIDToID_last_id_le valid t' g)

theorem GUIDToID_invalid (valid : String → Bool) (s : CodecState) (g : String)
    (hv : valid g = false) : GUIDToID valid s g = (0, s) := by
  simp [GUIDToID, hv]

theorem GUIDToID_valid_spec (valid : String → Bool) (s : CodecState) (hWF : CodecWF s)
    (g : String) (hv : valid g = true) :
    (GUIDToID valid s g).2.guid_id_map.lookup g = some (GUIDToID valid s g).1 ∧
    1 ≤ (GUIDToID valid s g).1 ∧
    (GUIDToID valid s g).1 < (GUIDToID valid s g).2.last_id := by
  unfold GUIDToID
  rw [if_neg (by simp [hv])]
  split
  · rename_i i hfound
    exact ⟨hfound, (hWF.idRange g i hfound).1, (hWF.idRange g i hfound).2⟩
  · refine ⟨?_, hWF.onePos, Nat.lt_succ_self _⟩
    simp [lookup_cons_unfold]

theorem IDToGUID_of_lookup (s : CodecState) (hWF : CodecWF s) (g : String) (i : Nat)
    (h1 : 1 ≤ i) (h : s.guid_id_map.lookup g = some i) : IDToGUID s i = g := by
  have h2 := hWF.lookupId g i h
  unfold IDToGUID
  rw [if_neg (by omega), h2]

/-! ## 16-bit packing lemmas -/

theorem pack16_high (a b : Nat) (ha : a ≤ 65535) (hb : b ≤ 65535) :
    ((a <<< 16 ||| b) >>> 16) &&& 65535 = a := by
  apply Nat.eq_of_testBit_eq
  intro i
  have hb' : b.testBit (16 + i) = false := by
    apply Nat.testBit_lt_two_pow
    have : (2 : Nat) ^ 16 ≤ 2 ^ (16 + i) := Nat.pow_le_pow_right (by norm_num) (by omega)
    omega
  have h65535 : (65535 : Nat) = 2 ^ 16 - 1 := by norm_num
  rw [Nat.testBit_land, Nat.testBit_shiftRight, Nat.testBit_lor, Nat.testBit_shiftLeft, hb',
    h65535, Nat.testBit_two_pow_sub_one]
  by_cases h : i < 16
  · simp [h, Nat.add_sub_cancel_left, Nat.le_add_right]
  · have ha' : a.testBit i = false := by
      apply Nat.testBit_lt_two_pow
      have : (2 : Nat) ^ 16 ≤ 2 ^ i := Nat.pow_le_pow_right (by norm_num) (by omega)
      omega
    simp [h, Nat.add_sub_cancel_left, ha']

theorem pack16_low (a b : Nat) (ha : a ≤ 65535) (hb : b ≤ 65535) :
    (a <<< 16 ||| b) &&& 65535 = b := by
  apply Nat.eq_of_testBit_eq
  intro i
  have h65535 : (65535 : Nat) = 2 ^ 16 - 1 := by norm_num
  rw [Nat.testBit_land, Nat.testBit_lor, Nat.testBit_shiftLeft, h65535,
    Nat.testBit_two_pow_sub_one]
  by_cases h : i < 16
  · have hs : (decide (16 ≤ i)) = false := by simp; omega
    simp [h, hs]
  · have hb' : b.testBit i = false := by
      apply Nat.testBit_lt_two_pow
      have : (2 : Nat) ^ 16 ≤ 2 ^ i := Nat.pow_le_pow_right (by norm_num) (by omega)
      omega
    simp [h, hb']

/-- C1: for every pair of optional identifier strings (each one a valid GUID,
or the empty string denoting absence), if at most 65535 distinct identifiers
have been assigned ids by the time of the unpack (`last_id ≤ 65536`), then
`UnpackGUIDs` applied to the result of `PackGUIDs` returns exactly the
original pair, even when arbitrary further `GUIDToID` assignments (from
`PackGUIDs` calls for other identifiers) happen between the pack and the
unpack; the credit-card half travels in the high 16 bits and the profile half
in the low 16 bits. -/
theorem PackGUIDs_UnpackGUIDs_roundtrip (valid : String → Bool) (s0 s2 : CodecState)
    (ccGuid profileGuid : String) (hWF : CodecWF s0)
    (hcc : valid ccGuid = true ∨ ccGuid = "")
    (hpr : valid profileGuid = true ∨ profileGuid = "")
    (hReach : CodecReach valid (PackGUIDs valid s0 ccGuid profileGuid).2 s2)
    (hBound : s2.last_id ≤ 65536) :
    UnpackGUIDs s2 (PackGUIDs valid s0 ccGuid profileGuid).1 = (ccGuid, profileGuid) := by
  have hpack1 : (PackGUIDs valid s0 ccGuid profileGuid).1 =
      (GUIDToID valid s0 ccGuid).1 <<< 16 |||
        (GUIDToID valid (GUIDToID valid s0 ccGuid).2 profileGuid).1 := rfl
  have hpack2 : (PackGUIDs valid s0 ccGuid profileGuid).2 =
      (GUIDToID valid (GUIDToID valid s0 ccGuid).2 profileGuid).2 := rfl
  rw [hpack2] at hReach
  have hWF1 : CodecWF (GUIDToID valid s0 ccGuid).2 := GUIDToID_WF valid s0 hWF ccGuid
  have hWF2 : CodecWF (GUIDToID valid (GUIDToID valid s0 ccGuid).2 profileGuid).2 :=
    GUIDToID_WF valid _ hWF1 profileGuid
  have hWFs2 : CodecWF s2 := CodecReach_WF valid _ s2 hReach hWF2
  -- facts about the credit-card half
  have hccHalf : ((GUIDToID valid s0 ccGuid).1 ≤ 65535 ∧
      IDToGUID s2 (GUIDToID valid s0 ccGuid).1 = ccGuid) := by
    cases hv : valid ccGuid with
    | false =>
      have hempty : ccGuid = "" := by
        rcases hcc with h | h
        · rw [hv] at h; cases h
        · exact h
      rw [GUIDToID_invalid valid s0 ccGuid hv]
      constructor
      · exact Nat.zero_le _
      · simp [IDToGUID, hempty]
    | true =>
      obtain ⟨hl, h1, _⟩ := GUIDToID_valid_spec valid s0 hWF ccGuid hv
      have hl2 := GUIDToID_guid_lookup_mono valid (GUIDToID valid s0 ccGuid).2 profileGuid
        ccGuid (GUIDToID valid s0 ccGuid).1 hl
      have hl3 := CodecReach_guid_lookup valid _ s2 hReach ccGuid (GUIDToID valid s0 ccGuid).1 hl2
      have hrange := hWFs2.idRange ccGuid (GUIDToID valid s0 ccGuid).1 hl3
      exact ⟨by omega, IDToGUID_of_lookup s2 hWFs2 ccGuid _ h1 hl3⟩
  -- facts about the profile half
  have hprHalf : ((GUIDToID valid (GUIDToID valid s0 ccGuid).2 profileGuid).1 ≤ 65535 ∧
      IDToGUID s2 (GUIDToID valid (GUIDToID valid s0 ccGuid).2 profileGuid).1 = profileGuid) := by
    cases hv : valid profileGuid with
    | false =>
      have hempty : profileGuid = "" := by
        rcases hpr with h | h
        · rw [hv] at h; cases h
        · exact h
      rw [GUIDToID_invalid valid _ profileGuid hv]
      constructor
      · exact Nat.zero_le _
      · simp [IDToGUID, hempty]
    | true =>
      obtain ⟨hl, h1, _⟩ := GUIDToID_valid_spec valid _ hWF1 profileGuid hv
      have hl3 := CodecReach_guid_lookup valid _ s2 hReach profileGuid _ hl
      have hrange := hWFs2.idRange profileGuid _ hl3
      exact ⟨by omega, IDToGUID_of_lookup s2 hWFs2 profileGuid _ h1 hl3⟩
  rw [hpack1]
  unfold UnpackGUIDs
  rw [pack16_high _ _ hccHalf.1 hprHalf.1, pack16_low _ _ hccHalf.1 hprHalf.1]
  simp only [hccHalf.2, hprHalf.2]

/-- Witness for C1, following Scenario D of the spec: pack `(absent, guid-A)`,
then pack `(absent, guid-B)` (one more `GUIDToID` step for its profile half;
its credit-card half is the already-memoized sentinel), then unpack the first
packed value: the original pair comes back. -/
theorem PackGUIDs_UnpackGUIDs_roundtrip_witness :
    UnpackGUIDs
      (GUIDToID (fun s => s.length == 6)
        (PackGUIDs (fun s => s.length == 6) initialCodecState "" "guid-A").2 "guid-B").2
      (PackGUIDs (fun s => s.length == 6) initialCodecState "" "guid-A").1 = ("", "guid-A") :=
  PackGUIDs_UnpackGUIDs_roundtrip (fun s => s.length == 6) initialCodecState _ "" "guid-A"
    initialCodecState_WF (Or.inr rfl) (Or.inl (by decide))
    (CodecReach.step _ _ "guid-B" (CodecReach.refl _)) (by decide)

/-! ## Lemmas about the forward search -/

theorem searchFrom_ge {α φ : Type} (feq : α → φ → Bool) (rest : List α) (bound : Nat)
    (lf : φ) : ∀ k : Nat, k ≤ searchFrom feq rest bound k lf := by
  induction rest with
  | nil => intro k; simp [searchFrom]
  | cons c rs ih =>
    intro k
    simp only [searchFrom]
    split
    · split
      · exact Nat.le_refl _
      · exact Nat.le_trans (Nat.le_succ k) (ih (k + 1))
    · exact Nat.le_refl _

theorem searchFrom_eq_bound {α φ : Type} (feq : α → φ → Bool) (bound : Nat) (lf : φ) :
    ∀ (rest : List α) (k : Nat), k ≤ bound → bound ≤ k + rest.length →
      (∀ idx (h : idx < rest.length), k + idx < bound → feq (rest.get ⟨idx, h⟩) lf = false) →
      searchFrom feq rest bound k lf = bound := by
  intro rest
  induction rest with
  | nil =>
    intro k hk hlen _
    simp only [searchFrom]
    simp at hlen
    omega
  | cons c rs ih =>
    intro k hk hlen hno
    simp only [searchFrom]
    split
    · rename_i hlt
      have h0 : feq c lf = false := hno 0 (by simp) (by omega)
      rw [h0]
      simp only [Bool.false_eq_true, if_false]
      apply ih (k + 1) (by omega) (by simp at hlen ⊢; omega)
      intro idx h hidx
      have := hno (idx + 1) (by simp; omega) (by omega)
      simpa using this
    · rename_i hge
      omega

theorem searchFrom_lt_of_match {α φ : Type} (feq : α → φ → Bool) (bound : Nat) (lf : φ) :
    ∀ (rest : List α) (k : Nat),
      (∃ idx, ∃ hi : idx < rest.length, k + idx < bound ∧ feq (rest.get ⟨idx, hi⟩) lf = true) →
      searchFrom feq rest bound k lf < bound := by
  intro rest
  induction rest with
  | nil =>
    intro k h
    obtain ⟨idx, hi, _⟩ := h
    simp at hi
  | cons c rs ih =>
    intro k h
    obtain ⟨idx, hi, hb, hm⟩ := h
    have hklt : k < bound := by omega
    simp only [searchFrom]
    rw [if_pos hklt]
    split
    · exact hklt
    · rename_i hcf
      apply ih
      cases idx with
      | zero => exact absurd hm (by simpa using hcf)
      | succ n =>
        refine ⟨n, by simp at hi; omega, by omega, ?_⟩
        simpa using hm

/-! ## Structural-matcher theorems (fill-targeting loop) -/

theorem fillLoopCorrs_get_bound {α φ : Type} (feq : α → φ → Bool) (cached : List α)
    (sectionEnd : Nat) :
    ∀ (live : List φ) (i j m : Nat) (c : Nat × Nat),
      (fillLoopCorrs feq cached sectionEnd i j live).get? m = some c →
      i + m ≤ c.1 ∧ c.1 < sectionEnd := by
  intro live
  induction live with
  | nil =>
    intro i j m c h
    simp [fillLoopCorrs] at h
  | cons lf rest ih =>
    intro i j m c h
    simp only [fillLoopCorrs] at h
    split at h
    · split at h
      · have := ih i (j + 1) m c h
        omega
      · rename_i hklt
        cases m with
        | zero =>
          simp at h
          have hge := searchFrom_ge feq (cached.drop i) sectionEnd lf i
          rw [← h]
          constructor
          · simpa using hge
          · simpa using hklt
        | succ n =>
          have := ih (i + 1) (j + 1) n c (by simpa using h)
          omega
    · simp at h

/-- C3 counterexample: with cached section fields `[1, 2, 3]` (all of section
`[0, 3)`) and live fields `[3, 2]`, the fill-targeting loop produces
correspondences at cached indices 2 and then 1 — because after a match at
`k` the cursor advances by one (`++i`) rather than to `k + 1`, a later live
field may match an earlier (or the same) cached field, so the matched cached
index sequence is not strictly increasing. -/
theorem fillTargetCorrespondences_not_strictly_increasing :
    (fillTargetCorrespondences (fun (a : Nat) (b : Nat) => a == b) [1, 2, 3] 0 3 [3, 2]).map
        Prod.fst = [2, 1] ∧
    ¬ List.Pairwise (fun a b => a < b)
        ((fillTargetCorrespondences (fun (a : Nat) (b : Nat) => a == b) [1, 2, 3] 0 3
          [3, 2]).map Prod.fst) :=
  ⟨by decide, by decide⟩

/-- C3 amended: the cursor of the fill-targeting loop starts at
`sectionStart` and advances by one per correspondence, so the `m`-th
correspondence (0-based, in live-field order) has cached index at least
`sectionStart + m` and below `sectionEnd`; the matched indices need not be
strictly increasing and a cached index may be matched more than once. -/
theorem fillTargetCorrespondences_index_bound {α φ : Type} (feq : α → φ → Bool)
    (cached : List α) (sectionStart sectionEnd : Nat) (live : List φ) (m : Nat)
    (c : Nat × Nat)
    (h : (fillTargetCorrespondences feq cached sectionStart sectionEnd live).get? m = some c) :
    sectionStart + m ≤ c.1 ∧ c.1 < sectionEnd :=
  fillLoopCorrs_get_bound feq cached sectionEnd live sectionStart 0 m c h

/-- Witness for the amended C3 at the counterexample input: the second
correspondence (m = 1) is at cached index 1 with 0 + 1 ≤ 1 < 3. -/
theorem fillTargetCorrespondences_index_bound_witness :
    ((fillTargetCorrespondences (fun (a : Nat) (b : Nat) => a == b) [1, 2, 3] 0 3
        [3, 2]).get? 1 = some (1, 1)) ∧ (0 + 1 ≤ 1 ∧ 1 < 3) :=
  ⟨by decide,
   fillTargetCorrespondences_index_bound (fun (a : Nat) (b : Nat) => a == b) [1, 2, 3] 0 3
     [3, 2] 1 (1, 1) (by decide)⟩

theorem get_drop_abs {γ : Type} (l : List γ) (i idx : Nat) (h : idx < (l.drop i).length)
    (h2 : i + idx < l.length) : (l.drop i).get ⟨idx, h⟩ = l.get ⟨i + idx, h2⟩ := by
  simp [List.get_eq_getElem, List.getElem_drop]

theorem fillLoopCorrs_nil_of_no_match {α φ : Type} (feq : α → φ → Bool) (cached : List α)
    (sectionEnd : Nat) (hlen : sectionEnd ≤ cached.length) :
    ∀ (live : List φ) (i j : Nat), i ≤ sectionEnd →
      (∀ p ∈ live, ∀ m (hm : m < cached.length), i ≤ m → m < sectionEnd →
        feq (cached.get ⟨m, hm⟩) p = false) →
      fillLoopCorrs feq cached sectionEnd i j live = [] := by
  intro live
  induction live with
  | nil => intro i j _ _; simp [fillLoopCorrs]
  | cons lf rest ih =>
    intro i j hi hno
    simp only [fillLoopCorrs]
    split
    · rename_i hlt
      have hk : searchFrom feq (cached.drop i) sectionEnd i lf = sectionEnd := by
        apply searchFrom_eq_bound feq sectionEnd lf (cached.drop i) i hi (by simp; omega)
        intro idx h hidx
        have hmem : i + idx < cached.length := by omega
        rw [get_drop_abs cached i idx h hmem]
        exact hno lf (by simp) (i + idx) hmem (by omega) hidx
      rw [hk]
      rw [if_pos (Nat.le_refl _)]
      apply ih i (j + 1) hi
      intro p hp m hm h1 h2
      exact hno p (by simp [hp]) m hm h1 h2
    · rfl

theorem sectionIsAutoFilledLoop_true_of_late_match {α φ : Type} (feq : α → φ → Bool)
    (isAuto : φ → Bool) (cached : List α) (sectionStart sectionEnd : Nat) (lf : φ)
    (k : Nat) (hk : k < cached.length) (h1 : sectionStart < sectionEnd)
    (h3 : sectionStart ≤ k) (h4 : feq (cached.get ⟨k, hk⟩) lf = true)
    (h7 : isAuto lf = true) :
    ∀ (pre : List φ), (∀ p ∈ pre, ∀ c ∈ cached, feq c p = false) →
      sectionIsAutoFilledLoop feq isAuto cached sectionEnd (pre ++ [lf]) sectionStart = true := by
  intro pre
  induction pre with
  | nil =>
    intro _
    simp only [List.nil_append, sectionIsAutoFilledLoop]
    rw [if_pos h1]
    have hfound : searchFrom feq (cached.drop sectionStart) cached.length sectionStart lf <
        cached.length := by
      apply searchFrom_lt_of_match
      refine ⟨k - sectionStart, by simp; omega, by omega, ?_⟩
      rw [get_drop_abs cached sectionStart (k - sectionStart) (by simp; omega)
        (by omega)]
      have hks : sectionStart + (k - sectionStart) = k := by omega
      simp only [hks]
      exact h4
    rw [if_neg (by omega), if_pos h7]
  | cons p ps ih =>
    intro hno
    simp only [List.cons_append, sectionIsAutoFilledLoop]
    rw [if_pos h1]
    have hmiss : searchFrom feq (cached.drop sectionStart) cached.length sectionStart p =
        cached.length := by
      apply searchFrom_eq_bound feq cached.length p (cached.drop sectionStart) sectionStart
        (by omega) (by simp; omega)
      intro idx h hidx
      rw [get_drop_abs cached sectionStart idx h (by omega)]
      exact hno p (by simp) _ (List.get_mem cached (sectionStart + idx) (by omega))
    rw [hmiss, if_pos (Nat.le_refl _)]
    exact ih (fun q hq c hc => hno q (by simp [hq]) c hc)

/-- C10: the fill-state check's forward search is bounded by the cached
form's total field count, not by `section_end`: a live field that matches
only cached fields at or beyond `section_end` (here: at index `k` with
`section_end ≤ cached.length` and no match inside `[section_start,
section_end)`) is still matched, and if it reports itself auto-filled,
`SectionIsAutoFilled` returns true for the section — while the fill-targeting
loop, whose search stops at `section_end`, produces no correspondence for the
same live sequence.  Live fields preceding it that match nothing are skipped
by both loops. -/
theorem SectionIsAutoFilled_searches_past_section_end {α φ : Type} (feq : α → φ → Bool)
    (isAuto : φ → Bool) (cached : List α) (sectionStart sectionEnd : Nat)
    (pre : List φ) (lf : φ) (k : Nat) (hk : k < cached.length)
    (h1 : sectionStart < sectionEnd) (h2 : sectionEnd ≤ cached.length)
    (h3 : sectionStart ≤ k) (h4 : feq (cached.get ⟨k, hk⟩) lf = true)
    (h5 : ∀ m (hm : m < cached.length), sectionStart ≤ m → m < sectionEnd →
      feq (cached.get ⟨m, hm⟩) lf = false)
    (h6 : ∀ p ∈ pre, ∀ c ∈ cached, feq c p = false)
    (h7 : isAuto lf = true) :
    SectionIsAutoFilled feq isAuto cached sectionStart sectionEnd (pre ++ [lf]) = true ∧
    fillTargetCorrespondences feq cached sectionStart sectionEnd (pre ++ [lf]) = [] := by
  constructor
  · exact sectionIsAutoFilledLoop_true_of_late_match feq isAuto cached sectionStart sectionEnd
      lf k hk h1 h3 h4 h7 pre h6
  · apply fillLoopCorrs_nil_of_no_match feq cached sectionEnd h2 (pre ++ [lf]) sectionStart 0
      (by omega)
    intro p hp m hm hge hlt
    rcases List.mem_append.mp hp with hmem | hmem
    · exact h6 p hmem _ (List.get_mem cached m hm)
    · have : p = lf := by simpa using hmem
      subst this
      exact h5 m hm hge hlt

/-- Witness for C10: cached fields `[10, 20]`, section `[0, 1)`, live fields
`[99, 20]`; the live field `20` matches only cached index `1`, which is past
`section_end = 1` but inside the form, so the section counts as auto-filled
while the fill loop matches nothing. -/
theorem SectionIsAutoFilled_searches_past_section_end_witness :
    SectionIsAutoFilled (fun (a : Nat) (b : Nat) => a == b) (fun _ => true) [10, 20] 0 1
        [99, 20] = true ∧
    fillTargetCorrespondences (fun (a : Nat) (b : Nat) => a == b) [10, 20] 0 1
        [99, 20] = [] :=
  SectionIsAutoFilled_searches_past_section_end (fun (a : Nat) (b : Nat) => a == b)
    (fun _ => true) [10, 20] 0 1 [99] 20 1 (by decide) (by decide) (by decide) (by decide)
    (by decide)
    (by intro m hm hge hlt
        have hm0 : m = 0 := by omega
        subst hm0
        rfl)
    (by decide) (by decide)

/-! ## The already-auto-filled branch of `OnFillAutoFillFormData` -/

theorem fillAlreadyFilledSection_spec {φ : Type} (beqLive : φ → φ → Bool) (fillInit : φ → φ)
    (initiating : φ) :
    ∀ fields : List φ,
      (fillAlreadyFilledSection beqLive fillInit initiating fields).length = fields.length ∧
      (∀ j, j ≠ fields.findIdx (fun f => beqLive f initiating) →
        (fillAlreadyFilledSection beqLive fillInit initiating fields).get? j =
          fields.get? j) ∧
      (fields.findIdx (fun f => beqLive f initiating) < fields.length →
        (fillAlreadyFilledSection beqLive fillInit initiating fields).get?
            (fields.findIdx (fun f => beqLive f initiating)) =
          (fields.get? (fields.findIdx (fun f => beqLive f initiating))).map fillInit) := by
  intro fields
  induction fields with
  | nil => exact ⟨rfl, fun j _ => rfl, by simp⟩
  | cons f rest ih =>
    cases hb : beqLive f initiating with
    | true =>
      have hidx : (f :: rest).findIdx (fun g => beqLive g initiating) = 0 := by
        rw [List.findIdx_cons, hb]
        rfl
      have hfill : fillAlreadyFilledSection beqLive fillInit initiating (f :: rest) =
          fillInit f :: rest := by
        simp [fillAlreadyFilledSection, hb]
      rw [hfill, hidx]
      refine ⟨by simp, ?_, ?_⟩
      · intro j hj
        cases j with
        | zero => exact absurd rfl hj
        | succ n => rfl
      · intro _
        rfl
    | false =>
      have hidx : (f :: rest).findIdx (fun g => beqLive g initiating) =
          rest.findIdx (fun g => beqLive g initiating) + 1 := by
        rw [List.findIdx_cons, hb]
        rfl
      have hfill : fillAlreadyFilledSection beqLive fillInit initiating (f :: rest) =
          f :: fillAlreadyFilledSection beqLive fillInit initiating rest := by
        simp [fillAlreadyFilledSection, hb]
      rw [hfill, hidx]
      refine ⟨by simpa using ih.1, ?_, ?_⟩
      · intro j hj
        cases j with
        | zero => rfl
        | succ n =>
          have : n ≠ rest.findIdx (fun g => beqLive g initiating) := by omega
          simpa using ih.2.1 n this
      · intro hlt
        have : rest.findIdx (fun g => beqLive g initiating) < rest.length := by
          simpa using hlt
        simpa using ih.2.2 this

/-- C6: when `SectionIsAutoFilled` reports the computed section already
auto-filled, the returned field list differs from the incoming one in at most
the first live field equal to the initiating field (at index `findIdx`),
which receives the resolved value; every other field keeps exactly its
incoming value. -/
theorem OnFill_alreadyFilled_targets_single_field {α φ : Type} (feq : α → φ → Bool)
    (isAuto : φ → Bool) (beqLive : φ → φ → Bool) (actionable : α → Bool)
    (fillWith : α → φ → φ) (fillInit : φ → φ) (cached : List α)
    (sectionStart sectionEnd : Nat) (initiating : φ) (fields : List φ)
    (h : SectionIsAutoFilled feq isAuto cached sectionStart sectionEnd fields = true) :
    (OnFillAutoFillFormDataFields feq isAuto beqLive actionable fillWith fillInit cached
        sectionStart sectionEnd initiating fields).length = fields.length ∧
    (∀ j, j ≠ fields.findIdx (fun f => beqLive f initiating) →
      (OnFillAutoFillFormDataFields feq isAuto beqLive actionable fillWith fillInit cached
          sectionStart sectionEnd initiating fields).get? j = fields.get? j) ∧
    (fields.findIdx (fun f => beqLive f initiating) < fields.length →
      (OnFillAutoFillFormDataFields feq isAuto beqLive actionable fillWith fillInit cached
          sectionStart sectionEnd initiating fields).get?
          (fields.findIdx (fun f => beqLive f initiating)) =
        (fields.get? (fields.findIdx (fun f => beqLive f initiating))).map fillInit) := by
  unfold OnFillAutoFillFormDataFields
  rw [if_pos h]
  exact fillAlreadyFilledSection_spec beqLive fillInit initiating fields

/-- Witness for C6: cached `[5]`, section `[0, 1)`, live fields `[5, 6]`
(the first one auto-filled), initiating field `6`: the non-initiating live
field at index 0 keeps its value. -/
theorem OnFill_alreadyFilled_targets_single_field_witness :
    (OnFillAutoFillFormDataFields (fun (a : Nat) (b : Nat) => a == b) (fun _ => true)
        (fun (a : Nat) (b : Nat) => a == b) (fun _ => true) (fun _ f => f)
        (fun x => x + 100) [5] 0 1 6 [5, 6]).get? 0 = ([5, 6] : List Nat).get? 0 :=
  (OnFill_alreadyFilled_targets_single_field (fun (a : Nat) (b : Nat) => a == b)
    (fun _ => true) (fun (a : Nat) (b : Nat) => a == b) (fun _ => true) (fun _ f => f)
    (fun x => x + 100) [5] 0 1 6 [5, 6] (by decide)).2.1 0 (by decide)

/-! ## Section-resolver lemmas -/

theorem drop_cons_decomp {γ : Type} (l : List γ) (i : Nat) (f : γ) (rs : List γ)
    (h : f :: rs = l.drop i) :
    ∃ hi : i < l.length, f = l.get ⟨i, hi⟩ ∧ rs = l.drop (i + 1) := by
  have hi : i < l.length := by
    by_contra hge
    rw [List.drop_eq_nil_iff.mpr (by omega)] at h
    cases h
  have hd := List.drop_eq_getElem_cons hi
  rw [hd, List.cons.injEq] at h
  refine ⟨hi, ?_, h.2⟩
  rw [List.get_eq_getElem]
  exact h.1

theorem findSectionLoop_exclusive (equiv : AutofillFieldType → AutofillFieldType)
    (grp : AutofillFieldType → FieldTypeGroup) (fields : List AutoFillField)
    (fieldIdx : Nat) (isCC : Bool) :
    ∀ (rest : List AutoFillField) (i sectionStart : Nat) (seen : List AutofillFieldType)
      (initIn : Bool) (res : Nat × Nat),
      rest = fields.drop i →
      (∀ m (hm : m < fields.length), sectionStart ≤ m → m < i →
        equiv (fields.get ⟨m, hm⟩).fieldType ≠ AutofillFieldType.UNKNOWN_TYPE →
        decide (grp (equiv (fields.get ⟨m, hm⟩).fieldType) = FieldTypeGroup.CREDIT_CARD) =
          isCC) →
      findSectionLoop equiv grp fieldIdx isCC rest i sectionStart seen initIn = res →
      ∀ m (hm : m < fields.length), res.1 ≤ m → m < res.2 →
        equiv (fields.get ⟨m, hm⟩).fieldType ≠ AutofillFieldType.UNKNOWN_TYPE →
        decide (grp (equiv (fields.get ⟨m, hm⟩).fieldType) = FieldTypeGroup.CREDIT_CARD) =
          isCC := by
  intro rest
  induction rest with
  | nil =>
    intro i sectionStart seen initIn res hrest hinv hres m hm h1 h2 hk
    simp only [findSectionLoop] at hres
    subst hres
    exact hinv m hm h1 h2 hk
  | cons f rs ih =>
    intro i sectionStart seen initIn res hrest hinv hres m hm h1 h2 hk
    obtain ⟨hi, hf, hrs⟩ := drop_cons_decomp fields i f rs hrest
    subst hf
    subst hrs
    simp only [findSectionLoop] at hres
    split at hres
    · rename_i hu
      refine ih (i + 1) sectionStart seen initIn res rfl ?_ hres m hm h1 h2 hk
      intro m' hm' ha hb hk'
      by_cases hmi : m' = i
      · have hfin : (⟨m', hm'⟩ : Fin fields.length) = ⟨i, hi⟩ := Fin.mk_eq_mk.mpr hmi
        rw [hfin] at hk'
        exact absurd hu hk'
      · exact hinv m' hm' ha (by omega) hk'
    · rename_i hu
      split at hres
      · split at hres
        · subst hres
          exact hinv m hm h1 h2 hk
        · split at hres
          · rename_i hB
            refine ih (i + 1) i _ _ res rfl ?_ hres m hm h1 h2 hk
            intro m' hm' ha hb hk'
            have hmi : m' = i := by omega
            have hfin : (⟨m', hm'⟩ : Fin fields.length) = ⟨i, hi⟩ := Fin.mk_eq_mk.mpr hmi
            rw [hfin]
            simp only [isAppropriateType] at hB
            exact eq_of_beq hB
          · refine ih (i + 1) (i + 1) [] initIn res rfl ?_ hres m hm h1 h2 hk
            intro m' hm' ha hb _
            omega
      · rename_i hOr
        refine ih (i + 1) sectionStart _ _ res rfl ?_ hres m hm h1 h2 hk
        intro m' hm' ha hb hk'
        by_cases hmi : m' = i
        · have hfin : (⟨m', hm'⟩ : Fin fields.length) = ⟨i, hi⟩ := Fin.mk_eq_mk.mpr hmi
          rw [hfin]
          have hB : isAppropriateType grp (equiv ((fields.get ⟨i, hi⟩).fieldType)) isCC =
              true := by
            rcases Bool.eq_false_or_eq_true
                (isAppropriateType grp (equiv ((fields.get ⟨i, hi⟩).fieldType)) isCC) with
              htrue | hfalse
            · exact htrue
            · exfalso
              apply hOr
              rw [hfalse]
              simp
          simp only [isAppropriateType] at hB
          exact eq_of_beq hB
        · exact hinv m' hm' ha (by omega) hk'
/-- C8: every field of the cached form whose index lies in the range returned
by `FindSectionBounds` and whose equivalent semantic type is known (not
`UNKNOWN_TYPE`) has group appropriateness matching the filling-payment flag:
its group is `CREDIT_CARD` exactly when `isFillingCreditCard` is true (the
phone/fax exemption only disables the repeated-type rule, not this one). -/
theorem FindSectionBounds_section_exclusive (equiv : AutofillFieldType → AutofillFieldType)
    (grp : AutofillFieldType → FieldTypeGroup) (fields : List AutoFillField)
    (fieldIdx : Nat) (isFillingCreditCard : Bool) (m : Nat) (hm : m < fields.length)
    (h1 : (FindSectionBounds equiv grp fields fieldIdx isFillingCreditCard).1 ≤ m)
    (h2 : m < (FindSectionBounds equiv grp fields fieldIdx isFillingCreditCard).2)
    (h3 : equiv (fields.get ⟨m, hm⟩).fieldType ≠ AutofillFieldType.UNKNOWN_TYPE) :
    decide (grp (equiv (fields.get ⟨m, hm⟩).fieldType) = FieldTypeGroup.CREDIT_CARD) =
      isFillingCreditCard :=
  findSectionLoop_exclusive equiv grp fields fieldIdx isFillingCreditCard fields 0 0 [] false
    (FindSectionBounds equiv grp fields fieldIdx isFillingCreditCard) (by simp)
    (fun m' _ _ hb _ => absurd hb (Nat.not_lt_zero m')) rfl m hm h1 h2 h3

/-- Witness for C8 at Scenario A of the spec: cached form
`[Name, City, CardNumber, ExpMonth, ExpYear]` with a payment-targeting call
from `CardNumber` yields section `[2, 5)`, and the field at index 3 inside it
is a credit-card-group field. -/
theorem FindSectionBounds_section_exclusive_witness :
    ((FindSectionBounds (fun t => t)
        (fun t => match t with
          | AutofillFieldType.other 1 => FieldTypeGroup.CONTACT_INFO
          | AutofillFieldType.other 2 => FieldTypeGroup.ADDRESS_HOME
          | AutofillFieldType.other 3 => FieldTypeGroup.CREDIT_CARD
          | AutofillFieldType.CREDIT_CARD_EXP_MONTH => FieldTypeGroup.CREDIT_CARD
          | AutofillFieldType.other 5 => FieldTypeGroup.CREDIT_CARD
          | _ => FieldTypeGroup.NO_GROUP)
        [⟨AutofillFieldType.other 1⟩, ⟨AutofillFieldType.other 2⟩,
          ⟨AutofillFieldType.other 3⟩, ⟨AutofillFieldType.CREDIT_CARD_EXP_MONTH⟩,
          ⟨AutofillFieldType.other 5⟩] 2 true).1 ≤ 3) ∧
    decide ((fun t => match t with
          | AutofillFieldType.other 1 => FieldTypeGroup.CONTACT_INFO
          | AutofillFieldType.other 2 => FieldTypeGroup.ADDRESS_HOME
          | AutofillFieldType.other 3 => FieldTypeGroup.CREDIT_CARD
          | AutofillFieldType.CREDIT_CARD_EXP_MONTH => FieldTypeGroup.CREDIT_CARD
          | AutofillFieldType.other 5 => FieldTypeGroup.CREDIT_CARD
          | _ => FieldTypeGroup.NO_GROUP)
        ((fun t => t) (([⟨AutofillFieldType.other 1⟩, ⟨AutofillFieldType.other 2⟩,
          ⟨AutofillFieldType.other 3⟩, ⟨AutofillFieldType.CREDIT_CARD_EXP_MONTH⟩,
          ⟨AutofillFieldType.other 5⟩] : List AutoFillField).get ⟨3, by decide⟩).fieldType) =
        FieldTypeGroup.CREDIT_CARD) = true :=
  ⟨by decide,
   FindSectionBounds_section_exclusive (fun t => t)
    (fun t => match t with
      | AutofillFieldType.other 1 => FieldTypeGroup.CONTACT_INFO
      | AutofillFieldType.other 2 => FieldTypeGroup.ADDRESS_HOME
      | AutofillFieldType.other 3 => FieldTypeGroup.CREDIT_CARD
      | AutofillFieldType.CREDIT_CARD_EXP_MONTH => FieldTypeGroup.CREDIT_CARD
      | AutofillFieldType.other 5 => FieldTypeGroup.CREDIT_CARD
      | _ => FieldTypeGroup.NO_GROUP)
    [⟨AutofillFieldType.other 1⟩, ⟨AutofillFieldType.other 2⟩,
      ⟨AutofillFieldType.other 3⟩, ⟨AutofillFieldType.CREDIT_CARD_EXP_MONTH⟩,
      ⟨AutofillFieldType.other 5⟩] 2 true 3 (by decide) (by decide) (by decide) (by decide)⟩

theorem findSectionLoop_keeps_initiating (equiv : AutofillFieldType → AutofillFieldType)
    (grp : AutofillFieldType → FieldTypeGroup) (fields : List AutoFillField)
    (fieldIdx : Nat) (isCC : Bool) :
    ∀ (rest : List AutoFillField) (i sectionStart : Nat) (seen : List AutofillFieldType)
      (res : Nat × Nat),
      rest = fields.drop i → sectionStart ≤ fieldIdx → fieldIdx < i →
      findSectionLoop equiv grp fieldIdx isCC rest i sectionStart seen true = res →
      res.1 ≤ fieldIdx ∧ fieldIdx < res.2 := by
  intro rest
  induction rest with
  | nil =>
    intro i sectionStart seen res _ hle hlt hres
    simp only [findSectionLoop] at hres
    subst hres
    exact ⟨hle, hlt⟩
  | cons f rs ih =>
    intro i sectionStart seen res hrest hle hlt hres
    obtain ⟨hi, hf, hrs⟩ := drop_cons_decomp fields i f rs hrest
    subst hf
    subst hrs
    simp only [findSectionLoop] at hres
    split at hres
    · exact ih (i + 1) sectionStart seen res rfl hle (by omega) hres
    · split at hres
      · have hres2 : (sectionStart, i) = res := by simpa using hres
        subst hres2
        exact ⟨hle, hlt⟩
      · rw [Bool.true_or] at hres
        exact ih (i + 1) sectionStart _ res rfl hle (by omega) hres

theorem findSectionLoop_reaches_initiating (equiv : AutofillFieldType → AutofillFieldType)
    (grp : AutofillFieldType → FieldTypeGroup) (fields : List AutoFillField)
    (fieldIdx : Nat) (isCC : Bool) (hIdx : fieldIdx < fields.length)
    (hKnown : equiv (fields.get ⟨fieldIdx, hIdx⟩).fieldType ≠ AutofillFieldType.UNKNOWN_TYPE)
    (hApp : decide (grp (equiv (fields.get ⟨fieldIdx, hIdx⟩).fieldType) =
        FieldTypeGroup.CREDIT_CARD) = isCC) :
    ∀ (rest : List AutoFillField) (i sectionStart : Nat) (seen : List AutofillFieldType)
      (res : Nat × Nat),
      rest = fields.drop i → sectionStart ≤ i → i ≤ fieldIdx →
      findSectionLoop equiv grp fieldIdx isCC rest i sectionStart seen false = res →
      res.1 ≤ fieldIdx ∧ fieldIdx < res.2 := by
  intro rest
  induction rest with
  | nil =>
    intro i sectionStart seen res hrest _ hile _
    exfalso
    rw [eq_comm, List.drop_eq_nil_iff] at hrest
    omega
  | cons f rs ih =>
    intro i sectionStart seen res hrest hle hile hres
    obtain ⟨hi, hf, hrs⟩ := drop_cons_decomp fields i f rs hrest
    subst hf
    subst hrs
    simp only [findSectionLoop] at hres
    by_cases hmi : i = fieldIdx
    · have hfin : (⟨i, hi⟩ : Fin fields.length) = ⟨fieldIdx, hIdx⟩ := Fin.mk_eq_mk.mpr hmi
      have hbeq : (i == fieldIdx) = true := by simp [hmi]
      have hBtrue : isAppropriateType grp (equiv ((fields.get ⟨i, hi⟩).fieldType)) isCC =
          true := by
        simp only [isAppropriateType]
        rw [hfin, hApp]
        simp
      split at hres
      · rename_i hu
        rw [hfin] at hu
        exact absurd hu hKnown
      · split at hres
        · rw [if_neg (show ¬(false = true) by simp), Bool.false_or, hbeq] at hres
          exact findSectionLoop_keeps_initiating equiv grp fields fieldIdx isCC _ (i + 1)
            i _ res rfl (by omega) (by omega) hres
        · rw [Bool.false_or, hbeq] at hres
          exact findSectionLoop_keeps_initiating equiv grp fields fieldIdx isCC _ (i + 1)
            sectionStart _ res rfl (by omega) (by omega) hres
    · have hbeq : (i == fieldIdx) = false := by simp [hmi]
      split at hres
      · exact ih (i + 1) sectionStart seen res rfl (by omega) (by omega) hres
      · split at hres
        · rw [if_neg (show ¬(false = true) by simp)] at hres
          split at hres
          · rw [Bool.false_or, hbeq] at hres
            exact ih (i + 1) i _ res rfl (by omega) (by omega) hres
          · exact ih (i + 1) (i + 1) [] res rfl (by omega) (by omega) hres
        · rw [Bool.false_or, hbeq] at hres
          exact ih (i + 1) sectionStart _ res rfl (by omega) (by omega) hres

/-- C2 counterexample: a form whose initiating field (index 0) has unknown
semantic type, followed by a credit-card-group field, queried with the
filling-payment flag false: the unknown initiating field is skipped by the
`continue`, so it is never marked as inside the current section; the
credit-card field restarts the section past itself, and the returned range
is `[2, 2)`, which does not contain index 0 (the code's own
`DCHECK(initiating_field_is_in_current_section)` would fire). -/
theorem FindSectionBounds_not_containing_counterexample :
    FindSectionBounds (fun t => t)
      (fun t => match t with
        | AutofillFieldType.other 1 => FieldTypeGroup.CREDIT_CARD
        | _ => FieldTypeGroup.NO_GROUP)
      [⟨AutofillFieldType.UNKNOWN_TYPE⟩, ⟨AutofillFieldType.other 1⟩] 0 false = (2, 2) ∧
    ¬ ((FindSectionBounds (fun t => t)
        (fun t => match t with
          | AutofillFieldType.other 1 => FieldTypeGroup.CREDIT_CARD
          | _ => FieldTypeGroup.NO_GROUP)
        [⟨AutofillFieldType.UNKNOWN_TYPE⟩, ⟨AutofillFieldType.other 1⟩] 0 false).1 ≤ 0 ∧
      0 < (FindSectionBounds (fun t => t)
        (fun t => match t with
          | AutofillFieldType.other 1 => FieldTypeGroup.CREDIT_CARD
          | _ => FieldTypeGroup.NO_GROUP)
        [⟨AutofillFieldType.UNKNOWN_TYPE⟩, ⟨AutofillFieldType.other 1⟩] 0 false).2) :=
  ⟨by decide, by decide⟩

/-- C2 amended: `FindSectionBounds` returns a half-open range containing the
initiating field's index provided that field's equivalent semantic type is
known (not `UNKNOWN_TYPE`) and its group appropriateness matches the
filling-payment flag — which is how both call sites invoke it; an
unknown-typed or inappropriately-grouped initiating field can be left
outside the range (a defensive-check violation, per the spec's §7). -/
theorem FindSectionBounds_contains_initiating (equiv : AutofillFieldType → AutofillFieldType)
    (grp : AutofillFieldType → FieldTypeGroup) (fields : List AutoFillField)
    (fieldIdx : Nat) (isFillingCreditCard : Bool) (hIdx : fieldIdx < fields.length)
    (hKnown : equiv (fields.get ⟨fieldIdx, hIdx⟩).fieldType ≠ AutofillFieldType.UNKNOWN_TYPE)
    (hApp : decide (grp (equiv (fields.get ⟨fieldIdx, hIdx⟩).fieldType) =
        FieldTypeGroup.CREDIT_CARD) = isFillingCreditCard) :
    (FindSectionBounds equiv grp fields fieldIdx isFillingCreditCard).1 ≤ fieldIdx ∧
    fieldIdx < (FindSectionBounds equiv grp fields fieldIdx isFillingCreditCard).2 :=
  findSectionLoop_reaches_initiating equiv grp fields fieldIdx isFillingCreditCard hIdx
    hKnown hApp fields 0 0 [] (FindSectionBounds equiv grp fields fieldIdx isFillingCreditCard)
    (by simp) (Nat.zero_le 0) (Nat.zero_le fieldIdx) rfl

/-- Witness for the amended C2 at Scenario A: the payment section computed
from `CardNumber` (index 2) contains index 2. -/
theorem FindSectionBounds_contains_initiating_witness :
    (FindSectionBounds (fun t => t)
        (fun t => match t with
          | AutofillFieldType.other 1 => FieldTypeGroup.CONTACT_INFO
          | AutofillFieldType.other 2 => FieldTypeGroup.ADDRESS_HOME
          | AutofillFieldType.other 3 => FieldTypeGroup.CREDIT_CARD
          | AutofillFieldType.CREDIT_CARD_EXP_MONTH => FieldTypeGroup.CREDIT_CARD
          | AutofillFieldType.other 5 => FieldTypeGroup.CREDIT_CARD
          | _ => FieldTypeGroup.NO_GROUP)
        [⟨AutofillFieldType.other 1⟩, ⟨AutofillFieldType.other 2⟩,
          ⟨AutofillFieldType.other 3⟩, ⟨AutofillFieldType.CREDIT_CARD_EXP_MONTH⟩,
          ⟨AutofillFieldType.other 5⟩] 2 true).1 ≤ 2 ∧
    2 < (FindSectionBounds (fun t => t)
        (fun t => match t with
          | AutofillFieldType.other 1 => FieldTypeGroup.CONTACT_INFO
          | AutofillFieldType.other 2 => FieldTypeGroup.ADDRESS_HOME
          | AutofillFieldType.other 3 => FieldTypeGroup.CREDIT_CARD
          | AutofillFieldType.CREDIT_CARD_EXP_MONTH => FieldTypeGroup.CREDIT_CARD
          | AutofillFieldType.other 5 => FieldTypeGroup.CREDIT_CARD
          | _ => FieldTypeGroup.NO_GROUP)
        [⟨AutofillFieldType.other 1⟩, ⟨AutofillFieldType.other 2⟩,
          ⟨AutofillFieldType.other 3⟩, ⟨AutofillFieldType.CREDIT_CARD_EXP_MONTH⟩,
          ⟨AutofillFieldType.other 5⟩] 2 true).2 :=
  FindSectionBounds_contains_initiating (fun t => t)
    (fun t => match t with
      | AutofillFieldType.other 1 => FieldTypeGroup.CONTACT_INFO
      | AutofillFieldType.other 2 => FieldTypeGroup.ADDRESS_HOME
      | AutofillFieldType.other 3 => FieldTypeGroup.CREDIT_CARD
      | AutofillFieldType.CREDIT_CARD_EXP_MONTH => FieldTypeGroup.CREDIT_CARD
      | AutofillFieldType.other 5 => FieldTypeGroup.CREDIT_CARD
      | _ => FieldTypeGroup.NO_GROUP)
    [⟨AutofillFieldType.other 1⟩, ⟨AutofillFieldType.other 2⟩,
      ⟨AutofillFieldType.other 3⟩, ⟨AutofillFieldType.CREDIT_CARD_EXP_MONTH⟩,
      ⟨AutofillFieldType.other 5⟩] 2 true (by decide) (by decide) (by decide)

/-! ## Deduplication lemmas -/

theorem rdsLoop_lengths {V L I U : Type} [DecidableEq V] [DecidableEq L] :
    ∀ (vs : List V) (ls : List L) (ics : List I) (us : List U) (seen : List (V × L)),
      (rdsLoop seen vs ls ics us).1.length = (rdsLoop seen vs ls ics us).2.1.length ∧
      (rdsLoop seen vs ls ics us).1.length = (rdsLoop seen vs ls ics us).2.2.1.length ∧
      (rdsLoop seen vs ls ics us).1.length = (rdsLoop seen vs ls ics us).2.2.2.length := by
  intro vs
  induction vs with
  | nil => intro ls ics us seen; simp [rdsLoop]
  | cons v vs ih =>
    intro ls ics us seen
    cases ls with
    | nil => simp [rdsLoop]
    | cons l ls =>
      cases ics with
      | nil => simp [rdsLoop]
      | cons ic ics =>
        cases us with
        | nil => simp [rdsLoop]
        | cons u us =>
          simp only [rdsLoop]
          split
          · exact ih ls ics us seen
          · have := ih ls ics us ((v, l) :: seen)
            simp only [List.length_cons]
            omega

theorem rdsLoop_nodup {V L I U : Type} [DecidableEq V] [DecidableEq L] :
    ∀ (vs : List V) (ls : List L) (ics : List I) (us : List U) (seen : List (V × L)),
      ((rdsLoop seen vs ls ics us).1.zip (rdsLoop seen vs ls ics us).2.1).Nodup ∧
      ∀ p ∈ (rdsLoop seen vs ls ics us).1.zip (rdsLoop seen vs ls ics us).2.1, p ∉ seen := by
  intro vs
  induction vs with
  | nil => intro ls ics us seen; simp [rdsLoop]
  | cons v vs ih =>
    intro ls ics us seen
    cases ls with
    | nil => simp [rdsLoop]
    | cons l ls =>
      cases ics with
      | nil => simp [rdsLoop]
      | cons ic ics =>
        cases us with
        | nil => simp [rdsLoop]
        | cons u us =>
          simp only [rdsLoop]
          split
          · exact ih ls ics us seen
          · rename_i hnotseen
            obtain ⟨hnd, hdisj⟩ := ih ls ics us ((v, l) :: seen)
            rw [List.zip_cons_cons]
            constructor
            · rw [List.nodup_cons]
              refine ⟨?_, hnd⟩
              intro hmem
              exact hdisj (v, l) hmem (by simp)
            · intro p hp
              rcases List.mem_cons.mp hp with hh | ht
              · subst hh
                exact hnotseen
              · intro hseen
                exact hdisj p ht (by simp [hseen])

theorem rdsLoop_id {V L I U : Type} [DecidableEq V] [DecidableEq L] :
    ∀ (vs : List V) (ls : List L) (ics : List I) (us : List U) (seen : List (V × L)),
      vs.length = ls.length → vs.length = ics.length → vs.length = us.length →
      (vs.zip ls).Nodup → (∀ p ∈ vs.zip ls, p ∉ seen) →
      rdsLoop seen vs ls ics us = (vs, ls, ics, us) := by
  intro vs
  induction vs with
  | nil =>
    intro ls ics us seen h1 h2 h3 _ _
    cases ls with
    | cons l ls => simp at h1
    | nil =>
      cases ics with
      | cons ic ics => simp at h2
      | nil =>
        cases us with
        | cons u us => simp at h3
        | nil => rfl
  | cons v vs ih =>
    intro ls ics us seen h1 h2 h3 hnd hdisj
    cases ls with
    | nil => simp at h1
    | cons l ls =>
      cases ics with
      | nil => simp at h2
      | cons ic ics =>
        cases us with
        | nil => simp at h3
        | cons u us =>
          simp only [rdsLoop]
          rw [List.zip_cons_cons, List.nodup_cons] at hnd
          have hhead : (v, l) ∉ seen := hdisj (v, l) (by rw [List.zip_cons_cons]; simp)
          rw [if_neg hhead]
          have htail : rdsLoop ((v, l) :: seen) vs ls ics us = (vs, ls, ics, us) := by
            apply ih ls ics us ((v, l) :: seen) (by simpa using h1) (by simpa using h2)
              (by simpa using h3) hnd.2
            intro p hp
            rw [List.mem_cons, not_or]
            constructor
            · intro he
              subst he
              exact hnd.1 hp
            · exact hdisj p (by rw [List.zip_cons_cons]; simp [hp])
          rw [htail]

/-- C9: on four equal-length parallel sequences, one pass of
`RemoveDuplicateSuggestions` leaves no duplicate (value, label) pair (in
first-seen order), and applying it a second time returns exactly the same
four sequences. -/
theorem RemoveDuplicateSuggestions_idempotent {V L I U : Type} [DecidableEq V]
    [DecidableEq L] (values : List V) (labels : List L) (icons : List I)
    (uniqueIds : List U) (h1 : values.length = labels.length)
    (h2 : values.length = icons.length) (h3 : values.length = uniqueIds.length) :
    ((RemoveDuplicateSuggestions values labels icons uniqueIds).1.zip
      (RemoveDuplicateSuggestions values labels icons uniqueIds).2.1).Nodup ∧
    RemoveDuplicateSuggestions (RemoveDuplicateSuggestions values labels icons uniqueIds).1
      (RemoveDuplicateSuggestions values labels icons uniqueIds).2.1
      (RemoveDuplicateSuggestions values labels icons uniqueIds).2.2.1
      (RemoveDuplicateSuggestions values labels icons uniqueIds).2.2.2 =
      RemoveDuplicateSuggestions values labels icons uniqueIds := by
  obtain ⟨hnd, _⟩ := rdsLoop_nodup values labels icons uniqueIds []
  obtain ⟨hl1, hl2, hl3⟩ := rdsLoop_lengths values labels icons uniqueIds []
  refine ⟨hnd, ?_⟩
  unfold RemoveDuplicateSuggestions
  exact rdsLoop_id _ _ _ _ [] hl1 hl2 hl3 hnd (by simp)

/-- Witness for C9 on a concrete run with a duplicate (value, label) pair. -/
theorem RemoveDuplicateSuggestions_idempotent_witness :
    RemoveDuplicateSuggestions
      (RemoveDuplicateSuggestions ["a", "b", "a"] ["x", "y", "x"] ["i", "j", "k"]
        [(1 : Int), 2, 3]).1
      (RemoveDuplicateSuggestions ["a", "b", "a"] ["x", "y", "x"] ["i", "j", "k"]
        [(1 : Int), 2, 3]).2.1
      (RemoveDuplicateSuggestions ["a", "b", "a"] ["x", "y", "x"] ["i", "j", "k"]
        [(1 : Int), 2, 3]).2.2.1
      (RemoveDuplicateSuggestions ["a", "b", "a"] ["x", "y", "x"] ["i", "j", "k"]
        [(1 : Int), 2, 3]).2.2.2 =
      RemoveDuplicateSuggestions ["a", "b", "a"] ["x", "y", "x"] ["i", "j", "k"]
        [(1 : Int), 2, 3] :=
  (RemoveDuplicateSuggestions_idempotent ["a", "b", "a"] ["x", "y", "x"] ["i", "j", "k"]
    [(1 : Int), 2, 3] (by decide) (by decide) (by decide)).2

/-! ## Value-resolver theorems -/

/-- C4: when the stored phone number has exactly
`kPrefixLength + kSuffixLength = 10` characters, `FillPhoneNumberField`
writes the first 3 characters for a field with `max_length = 3`, the last 7
characters for `max_length = 7`, and the whole number for any other
`max_length`; a stored number of any other length is always written
unchanged. -/
theorem FillPhoneNumberField_spec (number : List Char) (field : FormFieldState) :
    (number.length = 10 →
      (field.max_length = 3 → (FillPhoneNumberField number field).value = number.take 3) ∧
      (field.max_length = 7 → (FillPhoneNumberField number field).value = number.drop 3) ∧
      (field.max_length ≠ 3 → field.max_length ≠ 7 →
        (FillPhoneNumberField number field).value = number)) ∧
    (number.length ≠ 10 → (FillPhoneNumberField number field).value = number) := by
  constructor
  · intro hlen
    refine ⟨?_, ?_, ?_⟩
    · intro hml
      unfold FillPhoneNumberField
      rw [if_pos ⟨by simpa [PhoneNumber.kPrefixLength, PhoneNumber.kSuffixLength] using hlen,
        by simpa [PhoneNumber.kPrefixLength] using hml⟩]
      simp [PhoneNumber.kPrefixOffset, PhoneNumber.kPrefixLength]
    · intro hml
      unfold FillPhoneNumberField
      rw [if_neg (by simp [PhoneNumber.kPrefixLength, hml]),
        if_pos ⟨by simpa [PhoneNumber.kPrefixLength, PhoneNumber.kSuffixLength] using hlen,
          by simpa [PhoneNumber.kSuffixLength] using hml⟩]
      have hdlen : (number.drop PhoneNumber.kSuffixOffset).length = 7 := by
        simp [PhoneNumber.kSuffixOffset, hlen]
      show (number.drop PhoneNumber.kSuffixOffset).take PhoneNumber.kSuffixLength =
        number.drop 3
      rw [show PhoneNumber.kSuffixLength = (number.drop PhoneNumber.kSuffixOffset).length
        from hdlen.symm]
      rw [List.take_length]
      rfl
    · intro hml3 hml7
      unfold FillPhoneNumberField
      rw [if_neg (by simp [PhoneNumber.kPrefixLength, hml3]),
        if_neg (by simp [PhoneNumber.kSuffixLength, hml7])]
  · intro hlen
    unfold FillPhoneNumberField
    rw [if_neg (by simp [PhoneNumber.kPrefixLength, PhoneNumber.kSuffixLength]; omega),
      if_neg (by simp [PhoneNumber.kPrefixLength, PhoneNumber.kSuffixLength]; omega)]

/-- Witness for C4 at Scenario C: `"5551234567"` resolves to the suffix
`"1234567"` for `max_length = 7`, and is emitted unchanged for
`max_length = 20`. -/
theorem FillPhoneNumberField_spec_witness :
    (FillPhoneNumberField "5551234567".toList ⟨"text", 7, []⟩).value =
      "5551234567".toList.drop 3 ∧
    (FillPhoneNumberField "5551234567".toList ⟨"text", 20, []⟩).value =
      "5551234567".toList :=
  ⟨((FillPhoneNumberField_spec "5551234567".toList ⟨"text", 7, []⟩).1 (by decide)).2.1 rfl,
   (((FillPhoneNumberField_spec "5551234567".toList ⟨"text", 20, []⟩).1 (by decide)).2.2
     (by decide) (by decide))⟩

/-- C7: for a live field whose control kind is the HTML5 combined year-month
control, `FillCreditCardFormField` writes `year ++ "-" ++ month` exactly when
both stored sub-values are non-empty, and leaves the field entirely unchanged
when either is empty. -/
theorem FillCreditCardFormField_month (getFieldText : AutofillFieldType → List Char)
    (fillSelectControl : FormFieldState → FormFieldState) (fieldType : AutofillFieldType)
    (field : FormFieldState) (hMonth : field.form_control_type = "month") :
    (getFieldText AutofillFieldType.CREDIT_CARD_EXP_4_DIGIT_YEAR ≠ [] ∧
        getFieldText AutofillFieldType.CREDIT_CARD_EXP_MONTH ≠ [] →
      FillCreditCardFormField getFieldText fillSelectControl fieldType field =
        { field with value := getFieldText AutofillFieldType.CREDIT_CARD_EXP_4_DIGIT_YEAR ++
            ['-'] ++ getFieldText AutofillFieldType.CREDIT_CARD_EXP_MONTH }) ∧
    (getFieldText AutofillFieldType.CREDIT_CARD_EXP_4_DIGIT_YEAR = [] ∨
        getFieldText AutofillFieldType.CREDIT_CARD_EXP_MONTH = [] →
      FillCreditCardFormField getFieldText fillSelectControl fieldType field = field) := by
  have hsel : field.form_control_type ≠ "select-one" := by
    rw [hMonth]
    decide
  constructor
  · intro hboth
    unfold FillCreditCardFormField
    rw [if_neg hsel, if_pos hMonth, if_pos hboth]
  · intro hone
    unfold FillCreditCardFormField
    rw [if_neg hsel, if_pos hMonth, if_neg (by tauto)]

/-- Witness for C7: year `"2015"` and month `"7"` yield `"2015-7"` in a
month-control field. -/
theorem FillCreditCardFormField_month_witness :
    FillCreditCardFormField
      (fun t => match t with
        | AutofillFieldType.CREDIT_CARD_EXP_4_DIGIT_YEAR => "2015".toList
        | AutofillFieldType.CREDIT_CARD_EXP_MONTH => "7".toList
        | _ => [])
      (fun f => f) AutofillFieldType.CREDIT_CARD_EXP_MONTH ⟨"month", 0, []⟩ =
      ⟨"month", 0, "2015-7".toList⟩ :=
  (FillCreditCardFormField_month
    (fun t => match t with
      | AutofillFieldType.CREDIT_CARD_EXP_4_DIGIT_YEAR => "2015".toList
      | AutofillFieldType.CREDIT_CARD_EXP_MONTH => "7".toList
      | _ => [])
    (fun f => f) AutofillFieldType.CREDIT_CARD_EXP_MONTH ⟨"month", 0, []⟩ rfl).1
    (by constructor <;> decide)

/-- C5: when the assembled suggestion lists are non-empty but the query is
disallowed — the form is not auto-fillable under the enabled-check, or
credit-card suggestions are being produced for a non-HTTPS form — the four
result sequences are replaced by exactly one synthetic entry: the localized
warning text, an empty label, an empty icon, and the sentinel unique id -1
(both warning resource ids are non-zero constants). -/
theorem OnQueryPostProcess_warning_override (isAutoFillableStrict isFillingCreditCard
      isHTTPS sectionFilled : Bool) (warnFormDisabled warnInsecure : Int)
    (getWarningText : Int → List Char) (values labels icons : List (List Char))
    (uniqueIds : List Int) (hne : values ≠ [])
    (hd : warnFormDisabled ≠ 0) (hi : warnInsecure ≠ 0)
    (hcond : isAutoFillableStrict = false ∨
      (isFillingCreditCard = true ∧ isHTTPS = false)) :
    OnQueryPostProcess isAutoFillableStrict isFillingCreditCard isHTTPS sectionFilled
        warnFormDisabled warnInsecure getWarningText values labels icons uniqueIds =
      ([getWarningText
          (if isAutoFillableStrict = false then warnFormDisabled else warnInsecure)],
        [[]], [[]], [-1]) := by
  unfold OnQueryPostProcess
  rw [if_neg hne]
  rcases hcond with hs | ⟨hc, hh⟩
  · subst hs
    simp [hd]
  · subst hc
    subst hh
    cases hstrict : isAutoFillableStrict with
    | false => simp [hd]
    | true => simp [hi]

/-- Witness for C5: a disabled form with one real suggestion assembled is
replaced by the single warning entry. -/
theorem OnQueryPostProcess_warning_override_witness :
    OnQueryPostProcess false false true false 101 102 (fun _ => ['w'])
        [['v']] [['l']] [['o']] [7] = ([['w']], [[]], [[]], [-1]) :=
  OnQueryPostProcess_warning_override false false true false 101 102 (fun _ => ['w'])
    [['v']] [['l']] [['o']] [7] (by decide) (by decide) (by decide) (Or.inl rfl)
